import Mathlib

set_option maxHeartbeats 1000000
set_option maxRecDepth 40000

/- Verification development for the Tableau datasource lineage operator
   (src/dags/databook/operators.py).  The Python functions
   get_bigquery_connection, get_sqlserver_connection and the methods
   TableauDatasourcesOperator.{get_data_sources, parse_data_sources, execute}
   are embedded shallowly below.  Python dicts are modelled as ordered
   association lists (insertion order preserved, assignment to an existing
   key updates in place), bs4 attribute access .get(k) as Option String,
   and raised exceptions as an Except error channel. -/

/- JSON-like values: exactly the shapes the operator builds, namely null
   (Python None), strings, and ordered objects. -/

mutual

inductive Json where
  | null : Json
  | str : String → Json
  | obj : JObj → Json

inductive JObj where
  | nil : JObj
  | cons : String → Json → JObj → JObj

end

/- Lookup of a field inside an object, first binding wins. -/
def jlookup : JObj → String → Option Json
  | JObj.nil, _ => none
  | JObj.cons k v r, key => if k = key then some v else jlookup r key

/- Concatenation of two objects (used for the conditional field appended
   at the end of the sqlserver record). -/
def JObj.append : JObj → JObj → JObj
  | JObj.nil, o => o
  | JObj.cons k v r, o => JObj.cons k v (r.append o)

/- Value of a bs4 attribute in a JSON record: None becomes null. -/
def jopt : Option String → Json
  | none => Json.null
  | some s => Json.str s

/- Python-dict insertion on an association list: update the existing key
   in place, otherwise append at the end. -/
def pyInsert {α β : Type} [DecidableEq α] : List (α × β) → α → β → List (α × β)
  | [], k, v => [(k, v)]
  | (k2, v2) :: rest, k, v =>
    if k2 = k then (k, v) :: rest else (k2, v2) :: pyInsert rest k v

/- Python-dict lookup on an association list. -/
def alookup {α β : Type} [DecidableEq α] : List (α × β) → α → Option β
  | [], _ => none
  | (k2, v2) :: rest, k => if k2 = k then some v2 else alookup rest k

/- Exceptions the embedded code can raise.  nameError models the
   reference to the unbound name datasources at the end of
   parse_data_sources and the unbound name e in the broken handler
   "except Exception(e):" of get_data_sources; keyError models the
   failing dict lookup conn_infos[rel_info[conn_name]]. -/
inductive PyErr where
  | nameError : PyErr
  | keyError : Option String → PyErr
deriving DecidableEq

/- A connection element of the definition document, as bs4 exposes it:
   the attributes read by the code (each Option String, absent = None),
   the name attribute of the parent element, and the string children of
   the tag (bs4 membership x in tag tests tag.contents, the children,
   not the attributes). -/
structure ConnElem where
  className : Option String
  project : Option String
  schema : Option String
  server : Option String
  dbname : Option String
  oneTimeSql : Option String
  parentName : Option String
  contents : List String
deriving DecidableEq

/- A relation element: the type, name and connection attributes plus the
   inline text content. -/
structure RelElem where
  type : Option String
  name : Option String
  connection : Option String
  text : String
deriving DecidableEq

/- One parsed definition document: the elements found by
   soup.find_all(connection) and soup.find_all(relation), in document
   order. -/
structure TdsDoc where
  connections : List ConnElem
  relations : List RelElem
deriving DecidableEq

/- One directory visited by os.walk in parse_data_sources: its basename
   and its files (filename together with the document the file parses
   to). -/
structure DirEntry where
  baseDir : String
  files : List (String × TdsDoc)
deriving DecidableEq

/- get_bigquery_connection (operators.py lines 322 to 327). -/
def get_bigquery_connection (c : ConnElem) : JObj :=
  JObj.cons "type" (Json.str "bigquery")
    (JObj.cons "project" (jopt c.project)
      (JObj.cons "schema" (jopt c.schema)
        (JObj.cons "name" (jopt c.parentName) JObj.nil)))

/- get_sqlserver_connection (operators.py lines 330 to 337).  The guard
   of the optional field is the Python test "one-time-sql in connection",
   which on a bs4 tag checks the tag children (contents), not the
   attributes; the value, when the guard holds, is the attribute. -/
def get_sqlserver_connection (c : ConnElem) : JObj :=
  let base :=
    JObj.cons "type" (Json.str "sqlserver")
      (JObj.cons "server" (jopt c.server)
        (JObj.cons "db" (jopt c.dbname)
          (JObj.cons "name" (jopt c.parentName) JObj.nil)))
  if c.contents.contains "one-time-sql" then
    base.append (JObj.cons "one-time-sql" (jopt c.oneTimeSql) JObj.nil)
  else base

/- The connection loop of parse_data_sources (lines 407 to 414): two
   independent if tests on the class attribute; a matching element is
   inserted into conn_infos keyed by the parent name attribute (the name
   entry of the record just built). -/
def processConnections : List ConnElem → List (Option String × JObj) → List (Option String × JObj)
  | [], acc => acc
  | c :: rest, acc =>
    let acc1 :=
      if c.className = some "bigquery" then
        pyInsert acc c.parentName (get_bigquery_connection c)
      else acc
    let acc2 :=
      if c.className = some "sqlserver" then
        pyInsert acc1 c.parentName (get_sqlserver_connection c)
      else acc1
    processConnections rest acc2

/- The record built for one text relation (lines 419 to 422), given the
   resolved connection record. -/
def relInfo (r : RelElem) (ci : JObj) : JObj :=
  JObj.cons "name" (jopt r.name)
    (JObj.cons "conn_name" (jopt r.connection)
      (JObj.cons "connection" (Json.obj ci)
        (JObj.cons "query" (Json.str r.text) JObj.nil)))

/- The relation loop of parse_data_sources (lines 416 to 423): only
   relations with type text are handled; the lookup
   conn_infos[rel_info[conn_name]] raises KeyError when the referenced
   name is absent. -/
def processRelations (conns : List (Option String × JObj)) :
    List (Option String × JObj) → List RelElem → Except PyErr (List (Option String × JObj))
  | acc, [] => Except.ok acc
  | acc, r :: rest =>
    if r.type = some "text" then
      match alookup conns r.connection with
      | none => Except.error (PyErr.keyError r.connection)
      | some ci => processRelations conns (pyInsert acc r.name (relInfo r ci)) rest
    else processRelations conns acc rest

/- The per source aggregate: the conns and rels dicts. -/
structure SrcEntry where
  conns : List (Option String × JObj)
  rels : List (Option String × JObj)

/- Processing of one tds file body (lines 396 to 423): fresh conn_infos
   and rel_infos, connection loop, then relation loop. -/
def processDocument (d : TdsDoc) : Except PyErr SrcEntry :=
  let conns := processConnections d.connections []
  (processRelations conns [] d.relations).map (fun rels => SrcEntry.mk conns rels)

/- Test fname.endswith(tds) on the file name. -/
def hasTdsSuffix (s : String) : Bool :=
  match s.data.reverse with
  | 's' :: 'd' :: 't' :: _ => true
  | _ => false

/- Test base_dir.startswith(.) on the directory basename. -/
def isHiddenDir (s : String) : Bool :=
  match s.data with
  | '.' :: _ => true
  | _ => false

/- The file loop inside one directory (lines 391 to 423): non tds files
   are skipped, each tds file overwrites views[base_dir] with the entry
   built from it; a raised exception propagates. -/
def processFiles (base : String) (views : List (String × SrcEntry)) :
    List (String × TdsDoc) → Except PyErr (List (String × SrcEntry))
  | [] => Except.ok views
  | (fname, doc) :: rest =>
    if hasTdsSuffix fname then
      match processDocument doc with
      | Except.error e => Except.error e
      | Except.ok entry => processFiles base (pyInsert views base entry) rest
    else processFiles base views rest

/- The directory loop of parse_data_sources (lines 386 to 423):
   directories whose basename starts with a dot are skipped. -/
def processDirs (views : List (String × SrcEntry)) :
    List DirEntry → Except PyErr (List (String × SrcEntry))
  | [] => Except.ok views
  | d :: rest =>
    if isHiddenDir d.baseDir then processDirs views rest
    else
      match processFiles d.baseDir views d.files with
      | Except.error e => Except.error e
      | Except.ok v2 => processDirs v2 rest

/- The views mapping that the body of parse_data_sources constructs
   (the local variable views, lines 384 to 423). -/
def parse_views (dirs : List DirEntry) : Except PyErr (List (String × SrcEntry)) :=
  processDirs [] dirs

/- parse_data_sources itself (lines 383 to 424).  Its final statement is
   "return datasources" and the name datasources is bound nowhere in the
   function or at module level, so when the loops finish without raising,
   the function raises NameError instead of returning views. -/
def parse_data_sources (dirs : List DirEntry) : Except PyErr (List (String × SrcEntry)) :=
  match parse_views dirs with
  | Except.error e => Except.error e
  | Except.ok _ => Except.error PyErr.nameError

/- A datasource descriptor returned by the catalog listing: its internal
   identifier (datasource._id) and its display name (datasource.name). -/
structure Descriptor where
  id : String
  name : String
deriving DecidableEq

/- The destination directory of one datasource, os.path.join(tmp_dir,
   datasource.name) for a relative name component (line 372). -/
def destPath (tmpDir : String) (d : Descriptor) : String :=
  tmpDir ++ "/" ++ d.name

/- Filesystem effects performed by the operator.  removeDirTree is part
   of the vocabulary so that absence of cleanup is expressible; the code
   contains no call that would emit it.  The delete on close of the
   temporary archive file (a file, not a directory) is not modelled. -/
inductive FsOp where
  | createTempFile : String → FsOp
  | makeDir : String → FsOp
  | download : String → String → FsOp
  | extractInto : String → FsOp
  | removeDirTree : String → FsOp
deriving DecidableEq

/- The loop of get_data_sources (lines 368 to 381), with the set of
   directories already created under tmp_dir threaded through.  Each
   iteration creates a temporary archive file, then calls os.makedirs on
   the destination path; makedirs raises if the directory already
   exists, and the handler "except Exception(e):" then evaluates the
   unbound name e, so a NameError propagates and the loop stops.  On
   success the archive is downloaded and unzipped into the destination.
   Returns the emitted filesystem operations, the exception if one
   escaped, and the display names of the fully processed datasources. -/
def get_data_sources_loop (tmpDir : String) (existing : List String) :
    List Descriptor → List FsOp × Option PyErr × List String
  | [] => ([], none, [])
  | d :: rest =>
    let dest := destPath tmpDir d
    if existing.contains dest then
      ([FsOp.createTempFile tmpDir], some PyErr.nameError, [])
    else
      let r := get_data_sources_loop tmpDir (dest :: existing) rest
      (FsOp.createTempFile tmpDir :: FsOp.makeDir dest ::
        FsOp.download d.id dest :: FsOp.extractInto dest :: r.1,
       r.2.1, d.name :: r.2.2)

/- get_data_sources (lines 362 to 381): tmp_dir initially contains no
   destination directories. -/
def get_data_sources (tmpDir : String) (dss : List Descriptor) :
    List FsOp × Option PyErr × List String :=
  get_data_sources_loop tmpDir [] dss

/- All directory creating and removing filesystem operations of one run:
   the mkdtemp of __init__ (line 354) followed by everything
   get_data_sources does.  parse_data_sources only reads files and
   execute only writes the output file; neither touches directories. -/
def tableauRunOps (tmpDir : String) (dss : List Descriptor) : List FsOp :=
  FsOp.makeDir tmpDir :: (get_data_sources tmpDir dss).1

/- Directories created by a trace. -/
def madeDirs (ops : List FsOp) : List String :=
  ops.filterMap (fun op =>
    match op with
    | FsOp.makeDir p => some p
    | _ => none)

/- Directories removed by a trace. -/
def removedDirs (ops : List FsOp) : List String :=
  ops.filterMap (fun op =>
    match op with
    | FsOp.removeDirTree p => some p
    | _ => none)

/- Whether the connection class has a registered normalizer. -/
def isSupportedConn (c : ConnElem) : Bool :=
  c.className == some "bigquery" || c.className == some "sqlserver"

/- The connection loop again, now also recording what it logs: line 408
   executes logging.info(connection.get(class)) for every connection
   element, unconditionally; nothing else is emitted for an element
   whose class matches no normalizer. -/
def processConnectionsLog : List ConnElem → List (Option String × JObj) →
    List (Option String × JObj) × List (Option String)
  | [], acc => (acc, [])
  | c :: rest, acc =>
    let acc1 :=
      if c.className = some "bigquery" then
        pyInsert acc c.parentName (get_bigquery_connection c)
      else acc
    let acc2 :=
      if c.className = some "sqlserver" then
        pyInsert acc1 c.parentName (get_sqlserver_connection c)
      else acc1
    let r := processConnectionsLog rest acc2
    (r.1, c.className :: r.2)

/- String keys of the output document: json.dumps writes a None key as
   the string null. -/
def keyStr : Option String → String
  | none => "null"
  | some s => s

/- The serialized shape of the views mapping, as json.dumps would render
   it (execute, lines 429 to 430). -/
def entryToJson (e : SrcEntry) : Json :=
  Json.obj
    (JObj.cons "conns"
      (Json.obj (e.conns.foldr (fun p o => JObj.cons (keyStr p.1) (Json.obj p.2) o) JObj.nil))
      (JObj.cons "rels"
        (Json.obj (e.rels.foldr (fun p o => JObj.cons (keyStr p.1) (Json.obj p.2) o) JObj.nil))
        JObj.nil))

def viewsToJson (views : List (String × SrcEntry)) : Json :=
  Json.obj (views.foldr (fun p o => JObj.cons p.1 (entryToJson p.2) o) JObj.nil)

/- Sample data: the Sales scenario of the spec.  The connection element
   sits inside a parent declaration whose name attribute is c1. -/
def salesConn : ConnElem :=
  ConnElem.mk (some "bigquery") (some "p1") (some "s1") none none none (some "c1") []

def salesRel : RelElem :=
  RelElem.mk (some "text") (some "r1") (some "c1") "select 1"

def salesDoc : TdsDoc := TdsDoc.mk [salesConn] [salesRel]

/- The walk sees the staging root itself first (basename of the mkdtemp
   directory, no remaining tds files) and then the Sales directory. -/
def c1Dirs : List DirEntry :=
  [DirEntry.mk "tmpstaging" [], DirEntry.mk "Sales" [("Sales.tds", salesDoc)]]

def salesConnInfo : JObj :=
  JObj.cons "type" (Json.str "bigquery")
    (JObj.cons "project" (Json.str "p1")
      (JObj.cons "schema" (Json.str "s1")
        (JObj.cons "name" (Json.str "c1") JObj.nil)))

def salesRelInfo : JObj :=
  JObj.cons "name" (Json.str "r1")
    (JObj.cons "conn_name" (Json.str "c1")
      (JObj.cons "connection" (Json.obj salesConnInfo)
        (JObj.cons "query" (Json.str "select 1") JObj.nil)))

def c1Expected : List (String × SrcEntry) :=
  [("Sales", SrcEntry.mk [(some "c1", salesConnInfo)] [(some "r1", salesRelInfo)])]

/- Sample data for the dangling reference scenario: a healthy source A
   and a source B whose text relation references a connection name that
   no connection of B resolves to. -/
def okDirA : DirEntry := DirEntry.mk "A" [("A.tds", salesDoc)]

def danglingRel : RelElem :=
  RelElem.mk (some "text") (some "r2") (some "missing") "select 2"

def badDirB : DirEntry :=
  DirEntry.mk "B" [("B.tds", TdsDoc.mk [salesConn] [danglingRel])]

def c2Dirs : List DirEntry := [okDirA, badDirB]

/- Sample data for the sqlserver optional field: the element declares
   the one-time-sql attribute but of course has no child text node equal
   to the string one-time-sql. -/
def sqlElemAttr : ConnElem :=
  ConnElem.mk (some "sqlserver") none none (some "srv") (some "db1")
    (some "exec init") (some "c7") []

/- The converse shape: no one-time-sql attribute, but a stray child text
   node with exactly that content. -/
def sqlElemChild : ConnElem :=
  ConnElem.mk (some "sqlserver") none none (some "srv") (some "db1")
    none (some "c8") ["one-time-sql"]

/- Sample data for the table-relations-only scenario. -/
def tableRel : RelElem :=
  RelElem.mk (some "table") (some "t1") (some "c1") ""

def c5Doc : TdsDoc := TdsDoc.mk [salesConn] [tableRel]

/- Sample data for the unsupported connection class scenario. -/
def oracleConn : ConnElem :=
  ConnElem.mk (some "oracle") none none none none none (some "c9") []

/- Sample descriptors with a colliding display name. -/
def dSalesOne : Descriptor := Descriptor.mk "id1" "Sales"

def dSalesTwo : Descriptor := Descriptor.mk "id2" "Sales"

/- Serialization, mirroring json.dumps with its defaults: item separator
   comma space, key separator colon space, ensure_ascii escaping (quote,
   backslash, the five short escapes, and a 4-digit lowercase hex escape
   for every other character outside the printable ASCII range, using a
   surrogate pair beyond the basic plane). -/

def hexDig : Nat → Char
  | 0 => '0'
  | 1 => '1'
  | 2 => '2'
  | 3 => '3'
  | 4 => '4'
  | 5 => '5'
  | 6 => '6'
  | 7 => '7'
  | 8 => '8'
  | 9 => '9'
  | 10 => 'a'
  | 11 => 'b'
  | 12 => 'c'
  | 13 => 'd'
  | 14 => 'e'
  | 15 => 'f'
  | _ => '0'

def hex4 (n : Nat) : List Char :=
  [hexDig (n / 4096 % 16), hexDig (n / 256 % 16), hexDig (n / 16 % 16), hexDig (n % 16)]

def escapeChar (c : Char) : List Char :=
  if c = '"' then ['\\', '"']
  else if c = '\\' then ['\\', '\\']
  else if c = '\n' then ['\\', 'n']
  else if c = '\t' then ['\\', 't']
  else if c = '\r' then ['\\', 'r']
  else if c = '\x08' then ['\\', 'b']
  else if c = '\x0c' then ['\\', 'f']
  else if 0x20 ≤ c.toNat ∧ c.toNat ≤ 0x7e then [c]
  else if c.toNat < 0x10000 then ['\\', 'u'] ++ hex4 c.toNat
  else
    ['\\', 'u'] ++ hex4 (0xd800 + (c.toNat - 0x10000) / 0x400) ++
      ['\\', 'u'] ++ hex4 (0xdc00 + (c.toNat - 0x10000) % 0x400)

def escChars : List Char → List Char
  | [] => []
  | c :: cs => escapeChar c ++ escChars cs

mutual

def serializeVal : Json → List Char
  | Json.null => ['n', 'u', 'l', 'l']
  | Json.str s => '"' :: (escChars s.data ++ ['"'])
  | Json.obj JObj.nil => ['{', '}']
  | Json.obj (JObj.cons k v r) => '{' :: serializeMembers (JObj.cons k v r)

def serializeMembers : JObj → List Char
  | JObj.nil => ['}']
  | JObj.cons k v r =>
    '"' :: (escChars k.data ++ ('"' :: ':' :: ' ' :: serializeVal v)) ++
      (match r with
       | JObj.nil => ['}']
       | JObj.cons k2 v2 r2 => ',' :: ' ' :: serializeMembers (JObj.cons k2 v2 r2))

end

def Json.serialize (v : Json) : String := String.mk (serializeVal v)

/- The parsing direction: a recursive descent reader of the canonical
   format json.dumps emits, with explicit fuel (any fuel at least the
   input length suffices). -/

def parseHexDigit (c : Char) : Option Nat :=
  if '0' ≤ c ∧ c ≤ '9' then some (c.toNat - 48)
  else if 'a' ≤ c ∧ c ≤ 'f' then some (c.toNat - 87)
  else none

def hexVal4 (a b c d : Char) : Option Nat :=
  match parseHexDigit a, parseHexDigit b, parseHexDigit c, parseHexDigit d with
  | some x, some y, some z, some w => some (x * 4096 + y * 256 + z * 16 + w)
  | _, _, _, _ => none

def parseStrChars : Nat → List Char → Option (List Char × List Char)
  | 0, _ => none
  | _ + 1, [] => none
  | f + 1, c :: rest =>
    if c = '"' then some ([], rest)
    else if c = '\\' then
      match rest with
      | 'u' :: a :: b :: c2 :: d :: rest2 =>
        (match hexVal4 a b c2 d with
         | none => none
         | some m =>
           if m < 0xd800 ∨ 0xe000 ≤ m then
             (parseStrChars f rest2).map (fun p => (Char.ofNat m :: p.1, p.2))
           else if m < 0xdc00 then
             match rest2 with
             | '\\' :: 'u' :: a2 :: b2 :: c3 :: d2 :: rest3 =>
               (match hexVal4 a2 b2 c3 d2 with
                | none => none
                | some m2 =>
                  if 0xdc00 ≤ m2 ∧ m2 < 0xe000 then
                    (parseStrChars f rest3).map
                      (fun p => (Char.ofNat (0x10000 + (m - 0xd800) * 0x400 + (m2 - 0xdc00)) :: p.1, p.2))
                  else none)
             | _ => none
           else none)
      | '"' :: r2 => (parseStrChars f r2).map (fun p => ('"' :: p.1, p.2))
      | '\\' :: r2 => (parseStrChars f r2).map (fun p => ('\\' :: p.1, p.2))
      | 'n' :: r2 => (parseStrChars f r2).map (fun p => ('\n' :: p.1, p.2))
      | 't' :: r2 => (parseStrChars f r2).map (fun p => ('\t' :: p.1, p.2))
      | 'r' :: r2 => (parseStrChars f r2).map (fun p => ('\r' :: p.1, p.2))
      | 'b' :: r2 => (parseStrChars f r2).map (fun p => ('\x08' :: p.1, p.2))
      | 'f' :: r2 => (parseStrChars f r2).map (fun p => ('\x0c' :: p.1, p.2))
      | _ => none
    else (parseStrChars f rest).map (fun p => (c :: p.1, p.2))

mutual

def parseVal : Nat → List Char → Option (Json × List Char)
  | 0, _ => none
  | _ + 1, 'n' :: 'u' :: 'l' :: 'l' :: rest => some (Json.null, rest)
  | f + 1, '"' :: rest =>
    (parseStrChars (f + 1) rest).map (fun p => (Json.str (String.mk p.1), p.2))
  | _ + 1, '{' :: '}' :: rest => some (Json.obj JObj.nil, rest)
  | f + 1, '{' :: rest => (parseMembers f rest).map (fun p => (Json.obj p.1, p.2))
  | _ + 1, _ => none

def parseMembers : Nat → List Char → Option (JObj × List Char)
  | 0, _ => none
  | f + 1, '"' :: rest =>
    (match parseStrChars (f + 1) rest with
     | none => none
     | some (k, r1) =>
       match r1 with
       | ':' :: ' ' :: r2 =>
         (match parseVal f r2 with
          | none => none
          | some (v, r3) =>
            match r3 with
            | ',' :: ' ' :: r4 =>
              (parseMembers f r4).map (fun p => (JObj.cons (String.mk k) v p.1, p.2))
            | '}' :: r4 => some (JObj.cons (String.mk k) v JObj.nil, r4)
            | _ => none)
       | _ => none)
  | _ + 1, _ => none

end

def Json.parse (s : String) : Option Json :=
  match parseVal (s.data.length + 1) s.data with
  | some (v, []) => some v
  | _ => none

/- Well-formedness of a JSON value as the image of a Python object:
   every object has pairwise distinct keys (a dict cannot hold the same
   key twice). -/

def keyMem (k : String) : JObj → Bool
  | JObj.nil => false
  | JObj.cons k2 _ r => k == k2 || keyMem k r

mutual

def wfJson : Json → Bool
  | Json.null => true
  | Json.str _ => true
  | Json.obj o => wfObj o

def wfObj : JObj → Bool
  | JObj.nil => true
  | JObj.cons k v r => !keyMem k r && wfJson v && wfObj r

end

/- Size measures driving the fuel arguments of the reader. -/

mutual

def jsize : Json → Nat
  | Json.null => 1
  | Json.str s => s.data.length + 1
  | Json.obj o => msize o + 2

def msize : JObj → Nat
  | JObj.nil => 0
  | JObj.cons k v r => k.data.length + 2 + jsize v + msize r

end

/- execute (lines 426 to 430): run get_data_sources, then
   parse_data_sources, then serialize the result to the output file.
   The directory entries the walk will see are a parameter because they
   depend on the archive contents, which the embedding does not model. -/
def executeResult (tmpDir : String) (dss : List Descriptor) (dirs : List DirEntry) :
    Except PyErr String :=
  match (get_data_sources tmpDir dss).2.1 with
  | some e => Except.error e
  | none =>
    match parse_data_sources dirs with
    | Except.error e => Except.error e
    | Except.ok views => Except.ok (Json.serialize (viewsToJson views))

/- Helper lemmas. -/

theorem processRelations_no_text (conns acc : List (Option String × JObj))
    (rs : List RelElem) (h : ∀ r ∈ rs, r.type ≠ some "text") :
    processRelations conns acc rs = Except.ok acc := by
  induction rs with
  | nil => rfl
  | cons r rest ih =>
    have hr := h r (List.mem_cons_self r rest)
    simp only [processRelations, if_neg hr]
    exact ih fun x hx => h x (List.mem_cons_of_mem r hx)

theorem pyInsert_ne_nil {α β : Type} [DecidableEq α] (m : List (α × β)) (k : α) (v : β) :
    pyInsert m k v ≠ [] := by
  cases m with
  | nil => simp [pyInsert]
  | cons p rest =>
    obtain ⟨k2, v2⟩ := p
    simp only [pyInsert]
    split <;> simp

theorem processConnections_acc_ne_nil (cs : List ConnElem)
    (acc : List (Option String × JObj)) (h : acc ≠ []) :
    processConnections cs acc ≠ [] := by
  induction cs generalizing acc with
  | nil => exact h
  | cons c rest ih =>
    simp only [processConnections]
    apply ih
    split
    · split
      · exact pyInsert_ne_nil _ _ _
      · exact pyInsert_ne_nil _ _ _
    · split
      · exact pyInsert_ne_nil _ _ _
      · exact h

theorem processConnections_supported_ne_nil (cs : List ConnElem)
    (acc : List (Option String × JObj))
    (h : ∃ c ∈ cs, isSupportedConn c = true) :
    processConnections cs acc ≠ [] := by
  induction cs generalizing acc with
  | nil => simp at h
  | cons c rest ih =>
    simp only [processConnections]
    rcases h with ⟨c0, hc0, hsup⟩
    rcases List.mem_cons.mp hc0 with h0 | h0
    · subst h0
      have : (if c0.className = some "sqlserver" then
          pyInsert (if c0.className = some "bigquery" then
            pyInsert acc c0.parentName (get_bigquery_connection c0) else acc)
            c0.parentName (get_sqlserver_connection c0)
          else (if c0.className = some "bigquery" then
            pyInsert acc c0.parentName (get_bigquery_connection c0) else acc)) ≠ [] := by
        rcases (by simpa [isSupportedConn] using hsup :
            c0.className = some "bigquery" ∨ c0.className = some "sqlserver") with hb | hs
        · rw [if_pos hb]
          split
          · exact pyInsert_ne_nil _ _ _
          · exact pyInsert_ne_nil _ _ _
        · rw [if_pos hs]
          exact pyInsert_ne_nil _ _ _
      exact processConnections_acc_ne_nil rest _ this
    · exact ih _ ⟨c0, h0, hsup⟩

theorem removedDirs_loop_nil (dss : List Descriptor) (tmpDir : String)
    (existing : List String) :
    removedDirs (get_data_sources_loop tmpDir existing dss).1 = [] := by
  induction dss generalizing existing with
  | nil => rfl
  | cons d rest ih =>
    simp only [get_data_sources_loop]
    split
    · rfl
    · simpa [removedDirs] using ih (destPath tmpDir d :: existing)

/- Claim theorems. -/

/-- C1: the end to end scenario.  The claim says that for the Sales
catalog the run writes the documented output and that
parse_data_sources returns the mapping it constructs.  The code instead
raises NameError at the final statement of parse_data_sources (the
returned name datasources is never bound), so execute raises and writes
nothing.  The mapping the parse loop does construct (the local variable
views, embedded as parse_views) is exactly the documented output, and
its serialization is character for character the JSON text of the spec
scenario, which shows the claim describes the intended result. -/
theorem c1_run_raises_nameerror_yet_views_match :
    parse_data_sources c1Dirs = Except.error PyErr.nameError ∧
    executeResult "/tmp/stage" [dSalesOne] c1Dirs = Except.error PyErr.nameError ∧
    parse_views c1Dirs = Except.ok c1Expected ∧
    Json.serialize (viewsToJson c1Expected) =
      "\x7b\"Sales\": \x7b\"conns\": \x7b\"c1\": \x7b\"type\": \"bigquery\", \"project\": \"p1\", \"schema\": \"s1\", \"name\": \"c1\"\x7d\x7d, \"rels\": \x7b\"r1\": \x7b\"name\": \"r1\", \"conn_name\": \"c1\", \"connection\": \x7b\"type\": \"bigquery\", \"project\": \"p1\", \"schema\": \"s1\", \"name\": \"c1\"\x7d, \"query\": \"select 1\"\x7d\x7d\x7d\x7d" := by
  exact ⟨rfl, rfl, rfl, rfl⟩

/-- C2 counterexample: a run with a healthy source A and a source B whose
text relation references the connection name missing.  The claim says B
is excluded while A is still processed and appears in the output; the
code instead lets the KeyError escape, so the whole parse (and with it
the run) aborts and no output mapping exists at all, for A either. -/
theorem c2_counterexample_keyerror_aborts_run :
    parse_views c2Dirs = Except.error (PyErr.keyError (some "missing")) ∧
    parse_data_sources c2Dirs = Except.error (PyErr.keyError (some "missing")) := by
  exact ⟨rfl, rfl⟩

/-- C2 (amended): when a text relation references a connection name that
the connections resolved for the file do not contain, the relation loop
raises KeyError carrying that name, fabricates no connection, and the
exception aborts the processing of every remaining element and source. -/
theorem c2_dangling_reference_raises_keyerror
    (conns acc : List (Option String × JObj)) (r : RelElem) (rest : List RelElem)
    (h1 : r.type = some "text") (h2 : alookup conns r.connection = none) :
    processRelations conns acc (r :: rest) = Except.error (PyErr.keyError r.connection) := by
  simp [processRelations, h1, h2]

/-- C2 witness: the amended theorem applied to the concrete dangling
relation of the counterexample scenario. -/
theorem c2_witness :
    danglingRel.type = some "text" ∧
    alookup ([] : List (Option String × JObj)) danglingRel.connection = none ∧
    processRelations [] [] [danglingRel] = Except.error (PyErr.keyError danglingRel.connection) := by
  exact ⟨rfl, rfl, c2_dangling_reference_raises_keyerror [] [] danglingRel [] rfl rfl⟩

/-- C3: for a connection element whose class attribute is bigquery, the
normalizer returns a record with type bigquery, project and schema from
the element attributes and name from the parent declaration. -/
theorem c3_bigquery_record (c : ConnElem) (h : c.className = some "bigquery") :
    jlookup (get_bigquery_connection c) "type" = some (Json.str "bigquery") ∧
    jlookup (get_bigquery_connection c) "project" = some (jopt c.project) ∧
    jlookup (get_bigquery_connection c) "schema" = some (jopt c.schema) ∧
    jlookup (get_bigquery_connection c) "name" = some (jopt c.parentName) := by
  exact ⟨rfl, rfl, rfl, rfl⟩

/-- C3 witness: the bigquery theorem applied to the Sales element. -/
theorem c3_witness :
    salesConn.className = some "bigquery" ∧
    (jlookup (get_bigquery_connection salesConn) "type" = some (Json.str "bigquery") ∧
     jlookup (get_bigquery_connection salesConn) "project" = some (jopt salesConn.project) ∧
     jlookup (get_bigquery_connection salesConn) "schema" = some (jopt salesConn.schema) ∧
     jlookup (get_bigquery_connection salesConn) "name" = some (jopt salesConn.parentName)) := by
  exact ⟨rfl, c3_bigquery_record salesConn rfl⟩

/-- C4: the claim says the optional one-time-sql field is present iff
the element declares the one-time-sql attribute.  The code guards the
field with the Python expression one-time-sql in connection, and bs4
membership on a tag tests the child nodes, not the attributes.  So an
element that declares the attribute (and has no such child text) loses
the field, and an element with a stray child text equal to one-time-sql
but no attribute gains the field with value null.  Both directions of
the claimed equivalence fail on the code. -/
theorem c4_one_time_sql_guard_tests_children :
    sqlElemAttr.className = some "sqlserver" ∧
    sqlElemAttr.oneTimeSql = some "exec init" ∧
    jlookup (get_sqlserver_connection sqlElemAttr) "one-time-sql" = none ∧
    sqlElemChild.className = some "sqlserver" ∧
    sqlElemChild.oneTimeSql = none ∧
    jlookup (get_sqlserver_connection sqlElemChild) "one-time-sql" = some Json.null := by
  exact ⟨rfl, rfl, rfl, rfl, rfl, rfl⟩

/-- C5: parsing retains exactly the text relations.  For a document
whose relations all have a different type, the file yields the conns
mapping built from its connection elements together with an empty rels
mapping and no error, and the conns mapping is nonempty as soon as one
connection element has a registered class. -/
theorem c5_non_text_relations_dropped (d : TdsDoc)
    (h : ∀ r ∈ d.relations, r.type ≠ some "text") :
    processDocument d = Except.ok (SrcEntry.mk (processConnections d.connections []) []) ∧
    ((∃ c ∈ d.connections, isSupportedConn c = true) →
      processConnections d.connections [] ≠ []) := by
  constructor
  · show Except.map (fun rels => SrcEntry.mk (processConnections d.connections []) rels)
      (processRelations (processConnections d.connections []) [] d.relations) =
      Except.ok (SrcEntry.mk (processConnections d.connections []) [])
    rw [processRelations_no_text _ _ _ h]
    rfl
  · intro hex
    exact processConnections_supported_ne_nil _ _ hex

/-- C5 witness: a document with one bigquery connection and one table
relation. -/
theorem c5_witness :
    (∀ r ∈ c5Doc.relations, r.type ≠ some "text") ∧
    (processDocument c5Doc = Except.ok (SrcEntry.mk (processConnections c5Doc.connections []) []) ∧
     ((∃ c ∈ c5Doc.connections, isSupportedConn c = true) →
       processConnections c5Doc.connections [] ≠ [])) := by
  exact ⟨by decide, c5_non_text_relations_dropped c5Doc (by decide)⟩

/-- C6 counterexample: a connection element of class oracle.  The claim
says an UnsupportedConnectionType diagnostic is emitted; the code drops
the element from conns (that part holds) but the complete log of the
loop is the unconditional class echo that every element receives, so no
diagnostic of any kind distinguishes the unsupported element. -/
theorem c6_counterexample_silent_drop :
    processConnectionsLog [oracleConn] [] = ([], [some "oracle"]) ∧
    some "UnsupportedConnectionType" ∉ (processConnectionsLog [oracleConn] []).2 := by
  exact ⟨rfl, by decide⟩

/-- C6 (amended): elements whose class has no registered normalizer are
omitted from conns exactly as if they were absent, and the log records
one class echo per element and nothing else, so the drop leaves no
diagnostic trace. -/
theorem c6_unsupported_dropped_silently (cs : List ConnElem)
    (acc : List (Option String × JObj)) :
    (processConnectionsLog cs acc).1 = processConnections (cs.filter isSupportedConn) acc ∧
    (processConnectionsLog cs acc).2 = cs.map ConnElem.className := by
  induction cs generalizing acc with
  | nil => exact ⟨rfl, rfl⟩
  | cons c rest ih =>
    by_cases hsup : isSupportedConn c = true
    · simp only [processConnectionsLog, processConnections, List.filter_cons, hsup,
        if_true, List.map_cons]
      exact ⟨(ih _).1, by rw [(ih _).2]⟩
    · have hb : ¬ c.className = some "bigquery" := fun hEq =>
        hsup (by simp [isSupportedConn, hEq])
      have hs : ¬ c.className = some "sqlserver" := fun hEq =>
        hsup (by simp [isSupportedConn, hEq])
      simp only [processConnectionsLog, List.filter_cons, List.map_cons,
        if_neg hb, if_neg hs, if_neg hsup]
      exact ⟨(ih _).1, by rw [(ih _).2]⟩

/-- C7 counterexample: two distinct descriptors with the same display
name receive the same destination directory, so extraction paths are
not disambiguated. -/
theorem c7_counterexample_colliding_dest :
    destPath "/tmp/t" dSalesOne = destPath "/tmp/t" dSalesTwo ∧ dSalesOne ≠ dSalesTwo := by
  exact ⟨rfl, by decide⟩

/-- C7 (amended): the destination directory of a datasource is the
staging directory joined with the display name alone, so any two
sources with equal display names are assigned the identical path (the
second makedirs on it then raises and the broken handler aborts the
run, see the C10 theorem). -/
theorem c7_dest_depends_only_on_name (tmpDir : String) (d1 d2 : Descriptor)
    (h : d1.name = d2.name) : destPath tmpDir d1 = destPath tmpDir d2 := by
  unfold destPath
  rw [h]

/-- C7 witness: the amended theorem applied to the colliding pair. -/
theorem c7_witness :
    dSalesOne.name = dSalesTwo.name ∧
    destPath "/tmp/t" dSalesOne = destPath "/tmp/t" dSalesTwo := by
  exact ⟨rfl, c7_dest_depends_only_on_name "/tmp/t" dSalesOne dSalesTwo rfl⟩

/-- C8 counterexample: a successful single source run creates the
staging subdirectory for Sales and its trace contains no directory
removal at all, so the staging area survives past completion of the
extraction phase (and of the whole run: no later phase removes
directories either). -/
theorem c8_counterexample_staging_leaked :
    "/tmp/t/Sales" ∈ madeDirs (tableauRunOps "/tmp/t" [dSalesOne]) ∧
    removedDirs (tableauRunOps "/tmp/t" [dSalesOne]) = [] ∧
    (get_data_sources "/tmp/t" [dSalesOne]).2.1 = none := by
  exact ⟨by decide, rfl, rfl⟩

/-- C8 (amended): no exit path releases the staging directories: the
filesystem trace of any run, successful or aborted, contains no
directory removal operation, so every staging directory leaks. -/
theorem c8_no_exit_path_removes_staging (tmpDir : String) (dss : List Descriptor) :
    removedDirs (tableauRunOps tmpDir dss) = [] := by
  simpa [tableauRunOps, get_data_sources, removedDirs] using
    removedDirs_loop_nil dss tmpDir []

/-- C10: the handler of the directory creation failure is written
except Exception(e), so when makedirs raises for a datasource (its
destination directory already exists), evaluating the handler raises
NameError on the unbound name e; the exception escapes, the loop abort
processes no further datasources, and execute aborts with it. -/
theorem c10_broken_handler_aborts (tmpDir : String) (existing : List String)
    (d : Descriptor) (rest : List Descriptor)
    (h : existing.contains (destPath tmpDir d) = true) :
    get_data_sources_loop tmpDir existing (d :: rest) =
      ([FsOp.createTempFile tmpDir], some PyErr.nameError, []) := by
  simp only [get_data_sources_loop]
  rw [if_pos h]

/-- C10 witness: the abort theorem applied to a state in which the
Sales destination directory already exists. -/
theorem c10_witness :
    (["/tmp/t/Sales"].contains (destPath "/tmp/t" dSalesTwo) = true) ∧
    get_data_sources_loop "/tmp/t" ["/tmp/t/Sales"] [dSalesTwo] =
      ([FsOp.createTempFile "/tmp/t"], some PyErr.nameError, []) := by
  exact ⟨by decide, c10_broken_handler_aborts "/tmp/t" ["/tmp/t/Sales"] dSalesTwo [] (by decide)⟩

/- Helper lemmas for the serialization round trip (C9). -/

theorem parseHexDigit_hexDig (k : Nat) (h : k < 16) : parseHexDigit (hexDig k) = some k := by
  interval_cases k <;> rfl

theorem hexVal4_hex4 (n : Nat) (h : n < 65536) :
    hexVal4 (hexDig (n / 4096 % 16)) (hexDig (n / 256 % 16))
      (hexDig (n / 16 % 16)) (hexDig (n % 16)) = some n := by
  have e1 := parseHexDigit_hexDig (n / 4096 % 16) (Nat.mod_lt _ (by omega))
  have e2 := parseHexDigit_hexDig (n / 256 % 16) (Nat.mod_lt _ (by omega))
  have e3 := parseHexDigit_hexDig (n / 16 % 16) (Nat.mod_lt _ (by omega))
  have e4 := parseHexDigit_hexDig (n % 16) (Nat.mod_lt _ (by omega))
  simp only [hexVal4, e1, e2, e3, e4]
  congr 1
  omega

theorem char_toNat_valid (c : Char) :
    c.toNat < 0xd800 ∨ (0xdfff < c.toNat ∧ c.toNat < 0x110000) := by
  have h := c.valid
  simp only [UInt32.isValidChar, Nat.isValidChar] at h
  exact h

theorem parseStrChars_u_escape (f : Nat) (a b c2 d : Char) (tail : List Char) (m : Nat)
    (hm : hexVal4 a b c2 d = some m) (hc : m < 0xd800 ∨ 0xe000 ≤ m) :
    parseStrChars (f + 1) ('\\' :: 'u' :: a :: b :: c2 :: d :: tail) =
      (parseStrChars f tail).map (fun p => (Char.ofNat m :: p.1, p.2)) := by
  simp [parseStrChars, hm, hc]

theorem parseStrChars_surrogate (f : Nat) (a b c2 d a2 b2 c3 d2 : Char)
    (tail : List Char) (m m2 : Nat)
    (hm : hexVal4 a b c2 d = some m) (hm2 : hexVal4 a2 b2 c3 d2 = some m2)
    (hc1a : ¬ m < 0xd800) (hc1b : ¬ 0xe000 ≤ m) (hc2 : m < 0xdc00)
    (hc3 : 0xdc00 ≤ m2 ∧ m2 < 0xe000) :
    parseStrChars (f + 1)
      ('\\' :: 'u' :: a :: b :: c2 :: d :: '\\' :: 'u' :: a2 :: b2 :: c3 :: d2 :: tail) =
      (parseStrChars f tail).map
        (fun p => (Char.ofNat (0x10000 + (m - 0xd800) * 0x400 + (m2 - 0xdc00)) :: p.1, p.2)) := by
  simp [parseStrChars, hm, hm2, hc1a, hc1b, hc2, hc3]

theorem parseStrChars_escapeChar (c : Char) (f : Nat) (tail : List Char) :
    parseStrChars (f + 1) (escapeChar c ++ tail) =
      (parseStrChars f tail).map (fun p => (c :: p.1, p.2)) := by
  by_cases h1 : c = '"'
  · subst h1; simp [parseStrChars, escapeChar]
  by_cases h2 : c = '\\'
  · subst h2; simp [parseStrChars, escapeChar]
  by_cases h3 : c = '\n'
  · subst h3; simp [parseStrChars, escapeChar]
  by_cases h4 : c = '\t'
  · subst h4; simp [parseStrChars, escapeChar]
  by_cases h5 : c = '\r'
  · subst h5; simp [parseStrChars, escapeChar]
  by_cases h6 : c = '\x08'
  · subst h6; simp [parseStrChars, escapeChar]
  by_cases h7 : c = '\x0c'
  · subst h7; simp [parseStrChars, escapeChar]
  by_cases h8 : 0x20 ≤ c.toNat ∧ c.toNat ≤ 0x7e
  · have hesc : escapeChar c = [c] := by
      simp [escapeChar, h1, h2, h3, h4, h5, h6, h7, h8]
    rw [hesc]
    simp [parseStrChars, h1, h2]
  by_cases h9 : c.toNat < 0x10000
  · have hesc : escapeChar c = ['\\', 'u'] ++ hex4 c.toNat := by
      simp [escapeChar, h1, h2, h3, h4, h5, h6, h7, h8, h9]
    have hcond : c.toNat < 0xd800 ∨ 0xe000 ≤ c.toNat := by
      rcases char_toNat_valid c with h | h
      · exact Or.inl h
      · exact Or.inr (by omega)
    rw [hesc]
    simp only [hex4, List.cons_append, List.nil_append]
    rw [parseStrChars_u_escape f _ _ _ _ tail c.toNat (hexVal4_hex4 c.toNat h9) hcond,
      Char.ofNat_toNat]
  · have hhigh : c.toNat < 0x110000 := by
      rcases char_toNat_valid c with h | h
      · omega
      · exact h.2
    have hesc : escapeChar c =
        ['\\', 'u'] ++ hex4 (0xd800 + (c.toNat - 0x10000) / 0x400) ++
          ['\\', 'u'] ++ hex4 (0xdc00 + (c.toNat - 0x10000) % 0x400) := by
      simp [escapeChar, h1, h2, h3, h4, h5, h6, h7, h8, h9]
    have hhiv : 0xd800 + (c.toNat - 0x10000) / 0x400 < 65536 := by omega
    have hlov : 0xdc00 + (c.toNat - 0x10000) % 0x400 < 65536 := by omega
    have hc1a : ¬ (0xd800 + (c.toNat - 0x10000) / 0x400 < 0xd800) := by omega
    have hc1b : ¬ (0xe000 ≤ 0xd800 + (c.toNat - 0x10000) / 0x400) := by omega
    have hc2 : 0xd800 + (c.toNat - 0x10000) / 0x400 < 0xdc00 := by omega
    have hc3 : 0xdc00 ≤ 0xdc00 + (c.toNat - 0x10000) % 0x400 ∧
        0xdc00 + (c.toNat - 0x10000) % 0x400 < 0xe000 := by omega
    have harith : 0x10000 + (0xd800 + (c.toNat - 0x10000) / 0x400 - 0xd800) * 0x400 +
        (0xdc00 + (c.toNat - 0x10000) % 0x400 - 0xdc00) = c.toNat := by omega
    rw [hesc]
    simp only [hex4, List.cons_append, List.nil_append, List.append_assoc]
    rw [parseStrChars_surrogate f _ _ _ _ _ _ _ _ tail _ _
      (hexVal4_hex4 _ hhiv) (hexVal4_hex4 _ hlov) hc1a hc1b hc2 hc3, harith,
      Char.ofNat_toNat]

theorem parseStrChars_escChars (s : List Char) (f : Nat) (h : s.length < f) :
    ∀ rest : List Char, parseStrChars f (escChars s ++ '"' :: rest) = some (s, rest) := by
  induction s generalizing f with
  | nil =>
    intro rest
    obtain ⟨g, rfl⟩ : ∃ g, f = g + 1 := ⟨f - 1, by omega⟩
    simp [escChars, parseStrChars]
  | cons c s' ih =>
    intro rest
    obtain ⟨g, rfl⟩ : ∃ g, f = g + 1 := ⟨f - 1, by omega⟩
    have he : escChars (c :: s') ++ '"' :: rest = escapeChar c ++ (escChars s' ++ '"' :: rest) := by
      simp [escChars]
    rw [he, parseStrChars_escapeChar c g (escChars s' ++ '"' :: rest),
      ih g (by simp only [List.length_cons] at h; omega) rest]
    rfl

theorem jsize_pos (v : Json) : 1 ≤ jsize v := by
  cases v <;> simp [jsize]

theorem parseVal_null (f : Nat) (rest : List Char) :
    parseVal (f + 1) ('n' :: 'u' :: 'l' :: 'l' :: rest) = some (Json.null, rest) := by
  simp [parseVal]

theorem parseVal_quote (f : Nat) (rest : List Char) :
    parseVal (f + 1) ('"' :: rest) =
      (parseStrChars (f + 1) rest).map (fun p => (Json.str (String.mk p.1), p.2)) := by
  simp [parseVal]

theorem parseVal_obj_nil (f : Nat) (rest : List Char) :
    parseVal (f + 1) ('{' :: '}' :: rest) = some (Json.obj JObj.nil, rest) := by
  simp [parseVal]

theorem parseVal_obj_quote (f : Nat) (rest : List Char) :
    parseVal (f + 1) ('{' :: '"' :: rest) =
      (parseMembers f ('"' :: rest)).map (fun p => (Json.obj p.1, p.2)) := by
  simp [parseVal]

theorem parseMembers_last (f : Nat) (kd : List Char) (hk : kd.length < f + 1)
    (v : Json) (r2 rest : List Char) (hv : parseVal f r2 = some (v, '}' :: rest)) :
    parseMembers (f + 1) ('"' :: (escChars kd ++ ('"' :: ':' :: ' ' :: r2))) =
      some (JObj.cons (String.mk kd) v JObj.nil, rest) := by
  simp [parseMembers, parseStrChars_escChars kd (f + 1) hk, hv]

theorem parseMembers_more (f : Nat) (kd : List Char) (hk : kd.length < f + 1)
    (v : Json) (r2 r4 : List Char) (hv : parseVal f r2 = some (v, ',' :: ' ' :: r4)) :
    parseMembers (f + 1) ('"' :: (escChars kd ++ ('"' :: ':' :: ' ' :: r2))) =
      (parseMembers f r4).map (fun p => (JObj.cons (String.mk kd) v p.1, p.2)) := by
  simp [parseMembers, parseStrChars_escChars kd (f + 1) hk, hv]

theorem serializeMembers_cons_nil (k : String) (v : Json) :
    serializeMembers (JObj.cons k v JObj.nil) =
      '"' :: (escChars k.data ++ ('"' :: ':' :: ' ' :: serializeVal v)) ++ ['}'] := rfl

theorem serializeMembers_cons_cons (k : String) (v : Json) (k2 : String) (v2 : Json) (r2 : JObj) :
    serializeMembers (JObj.cons k v (JObj.cons k2 v2 r2)) =
      '"' :: (escChars k.data ++ ('"' :: ':' :: ' ' :: serializeVal v)) ++
        (',' :: ' ' :: serializeMembers (JObj.cons k2 v2 r2)) := rfl

theorem parse_serialize_aux (fuel : Nat) :
    (∀ v : Json, jsize v ≤ fuel →
      ∀ rest : List Char, parseVal fuel (serializeVal v ++ rest) = some (v, rest)) ∧
    (∀ (k : String) (v : Json) (o : JObj), msize (JObj.cons k v o) ≤ fuel →
      ∀ rest : List Char,
        parseMembers fuel (serializeMembers (JObj.cons k v o) ++ rest) =
          some (JObj.cons k v o, rest)) := by
  induction fuel with
  | zero =>
    constructor
    · intro v h
      have := jsize_pos v
      omega
    · intro k v o h
      simp [msize] at h
  | succ f ih =>
    constructor
    · intro v h rest
      cases v with
      | null => simpa [serializeVal] using parseVal_null f rest
      | str s =>
        obtain ⟨sd⟩ := s
        have hlen : sd.length < f + 1 := by
          simp only [jsize] at h
          omega
        simp only [serializeVal, List.cons_append, List.append_assoc, List.nil_append]
        rw [parseVal_quote, parseStrChars_escChars sd (f + 1) hlen rest]
        rfl
      | obj o =>
        cases o with
        | nil => simpa [serializeVal] using parseVal_obj_nil f rest
        | cons k v r =>
          have hm : msize (JObj.cons k v r) ≤ f := by
            simp only [jsize] at h
            omega
          cases r with
          | nil =>
            rw [serializeVal, serializeMembers_cons_nil]
            simp only [List.cons_append, List.append_assoc, List.nil_append]
            rw [parseVal_obj_quote]
            have h2 := ih.2 k v JObj.nil hm rest
            rw [serializeMembers_cons_nil] at h2
            simp only [List.cons_append, List.append_assoc, List.nil_append] at h2
            rw [h2]
            rfl
          | cons k2 v2 r2 =>
            rw [serializeVal, serializeMembers_cons_cons]
            simp only [List.cons_append, List.append_assoc, List.nil_append]
            rw [parseVal_obj_quote]
            have h2 := ih.2 k v (JObj.cons k2 v2 r2) hm rest
            rw [serializeMembers_cons_cons] at h2
            simp only [List.cons_append, List.append_assoc, List.nil_append] at h2
            rw [h2]
            rfl
    · intro k v o h rest
      obtain ⟨kd⟩ := k
      have hklen : kd.length < f + 1 := by
        simp only [msize] at h
        omega
      have hjv : jsize v ≤ f := by
        simp only [msize] at h
        omega
      cases o with
      | nil =>
        rw [serializeMembers_cons_nil]
        simp only [List.cons_append, List.append_assoc, List.nil_append]
        exact parseMembers_last f kd hklen v _ rest (ih.1 v hjv ('}' :: rest))
      | cons k2 v2 r2 =>
        have hm2 : msize (JObj.cons k2 v2 r2) ≤ f := by
          have := jsize_pos v
          simp only [msize] at h ⊢
          omega
        rw [serializeMembers_cons_cons]
        simp only [List.cons_append, List.append_assoc, List.nil_append]
        rw [parseMembers_more f kd hklen v _ _
            (ih.1 v hjv (',' :: ' ' :: (serializeMembers (JObj.cons k2 v2 r2) ++ rest))),
          ih.2 k2 v2 r2 hm2 rest]
        rfl

theorem msize_cons (k : String) (v : Json) (r : JObj) :
    msize (JObj.cons k v r) = k.data.length + 2 + jsize v + msize r := rfl

theorem escapeChar_length_pos (c : Char) : 1 ≤ (escapeChar c).length := by
  unfold escapeChar
  split_ifs <;> simp [hex4]

theorem escChars_length (s : List Char) : s.length ≤ (escChars s).length := by
  induction s with
  | nil => simp [escChars]
  | cons c cs ih =>
    have := escapeChar_length_pos c
    simp only [escChars, List.length_append, List.length_cons]
    omega

theorem serialize_length_bound (n : Nat) :
    (∀ v : Json, jsize v ≤ n → jsize v ≤ (serializeVal v).length) ∧
    (∀ o : JObj, msize o ≤ n → msize o + 1 ≤ (serializeMembers o).length) := by
  induction n with
  | zero =>
    constructor
    · intro v h
      have := jsize_pos v
      omega
    · intro o h
      cases o with
      | nil => simp [msize, serializeMembers]
      | cons k v r => simp [msize] at h
  | succ n ih =>
    constructor
    · intro v h
      cases v with
      | null => simp [jsize, serializeVal]
      | str s =>
        have := escChars_length s.data
        simp only [jsize, serializeVal, List.length_cons, List.length_append]
        omega
      | obj o =>
        cases o with
        | nil => simp [jsize, msize, serializeVal]
        | cons k v r =>
          have hm : msize (JObj.cons k v r) ≤ n := by
            simp only [jsize] at h
            omega
          have h2 := ih.2 (JObj.cons k v r) hm
          simp only [jsize, serializeVal, List.length_cons]
          omega
    · intro o h
      cases o with
      | nil => simp [msize, serializeMembers]
      | cons k v r =>
        have hv : jsize v ≤ n := by
          rw [msize_cons] at h
          omega
        have h1 := ih.1 v hv
        have hk := escChars_length k.data
        cases r with
        | nil =>
          rw [msize_cons, serializeMembers_cons_nil]
          simp only [List.length_append, List.length_cons, List.length_nil, msize]
          omega
        | cons k2 v2 r2 =>
          have hm2 : msize (JObj.cons k2 v2 r2) ≤ n := by
            have := jsize_pos v
            rw [msize_cons] at h
            omega
          have h2 := ih.2 (JObj.cons k2 v2 r2) hm2
          rw [msize_cons, serializeMembers_cons_cons]
          simp only [List.length_append, List.length_cons]
          omega

/-- C9: serializing a LineageDocument value, as execute does through
json.dumps (embedded as Json.serialize), and re-parsing the resulting
text yields the identical value: for every well formed JSON value
(objects carry pairwise distinct keys, which Python dicts guarantee)
the reader of the canonical format inverts the writer. -/
theorem c9_serialize_parse_round_trip (v : Json) (h : wfJson v = true) :
    Json.parse (Json.serialize v) = some v := by
  have hb := (serialize_length_bound (jsize v)).1 v (Nat.le_refl _)
  have hp := (parse_serialize_aux ((serializeVal v).length + 1)).1 v (by omega) []
  rw [List.append_nil] at hp
  have hd : (String.mk (serializeVal v)).data = serializeVal v := rfl
  simp only [Json.parse, Json.serialize, hd, hp]

/-- C9 witness: the round trip theorem applied to the lineage document
of the Sales scenario. -/
theorem c9_witness :
    wfJson (viewsToJson c1Expected) = true ∧
    Json.parse (Json.serialize (viewsToJson c1Expected)) = some (viewsToJson c1Expected) := by
  exact ⟨rfl, c9_serialize_parse_round_trip (viewsToJson c1Expected) rfl⟩
